import Mathlib

/-!
Shallow embedding of the `mc` zgrab2 scanner module (`modules/mc/scanner.go`):
the variable-length integer decoder `readVarInt` and the two-round
probe/response orchestrator `Scan`, together with theorems checking the
module's natural-language specification.

The remote peer (together with the network scheduler) is modelled as the list
of results that successive `conn.Read` calls produce: each `ReadEv` says how
much wall-clock time the call took, which bytes it delivered, and which Go
error value it returned alongside them.  Writes and `target.Open` are modelled
by optional error values, since the scanner never branches on anything else
about them.  Wall-clock time is measured in seconds, matching the source's
`time.After(5 * time.Second)` deadline.
-/

namespace MC

/-- Go `error` values that can flow through the scanner: `eof` is `io.EOF`,
`netTimeout` is a transport error whose `Timeout()` is true, `netRefused` a
connection-refused transport error, `netOther` any other transport error, and
`str msg` a plain error built with `errors.New` / `fmt.Errorf` (the only kind
of error `scanner.go` itself creates). -/
inductive GoErr where
  | eof
  | netTimeout
  | netRefused
  | netOther
  | str (msg : String)
  deriving DecidableEq, Repr

/-- The zgrab2 scan statuses used by this module. -/
inductive ScanStatus where
  | success
  | connectionRefused
  | ioTimeout
  | protocolError
  | unknownError
  deriving DecidableEq, Repr

/-- Modelled from the spec: `zgrab2.TryGetScanStatus` is framework code of
this repository that is not under `src/`.  Per the spec it is "a status/error
classification helper that maps a transport-level error into a coarse scan
status (e.g., connection-refused vs. timeout vs. unknown) for uniform
reporting across modules".  A timeout-flavoured transport error maps to the
i/o-timeout status, a refused connection to the connection-refused status, and
every other error value (including `io.EOF` and the plain string errors that
`scanner.go` produces with `fmt.Errorf`) to the unknown-error status. -/
def tryGetScanStatus : GoErr → ScanStatus
  | .netTimeout => .ioTimeout
  | .netRefused => .connectionRefused
  | _ => .unknownError

/-- The outcome of one `conn.Read` call as scheduled by the peer: the call
takes `delta` seconds, offers the bytes `chunk` and returns the error `err`
(Go `Read` may return bytes together with an error, notably `io.EOF`). -/
structure ReadEv where
  delta : Nat
  chunk : List Nat
  err : Option GoErr
  deriving DecidableEq, Repr

/-- A connection is the list of outcomes of its future `Read` calls. -/
abbrev Conn := List ReadEv

/-- What one `conn.Read` call into a buffer of capacity `cap` yields. -/
structure ReadRes where
  bytes : List Nat
  err : Option GoErr
  delta : Nat
  deriving DecidableEq, Repr

/-- `conn.Read` into a buffer of capacity `cap`: the next scheduled event is
consumed; at most `cap` of its bytes are delivered (reduced mod 256, as Go
bytes are), alongside its error and its duration.  A connection whose script
is exhausted behaves like a closed peer: `(0, io.EOF)`. -/
def Conn.read : Conn → Nat → ReadRes × Conn
  | [], _ => (⟨[], some .eof, 0⟩, [])
  | ev :: rest, cap => (⟨(ev.chunk.take cap).map (fun b => b % 256), ev.err, ev.delta⟩, rest)

/-- Loop body of `readVarInt` (scanner.go lines 122-133), with `fuel`
standing for the remaining iterations of `for i := 0; i < maxBytes; i++`
(`fuel = maxBytes - i`).  Each iteration reads into a fresh zeroed one-byte
buffer `var b [1]byte` and ignores the byte count, so a `(0, nil)` read
leaves `b[0] = 0`; mirrored by `headD 0`. -/
def readVarIntAux : Conn → Nat → Nat → Nat → Nat × Option GoErr × Conn
  | c, _, _, 0 => (0, some (.str "varint too long"), c)
  | c, shift, result, fuel + 1 =>
    match Conn.read c 1 with
    | (res, c') =>
      match res.err with
      | some e => (0, some e, c')
      | none =>
        let b := res.bytes.headD 0
        let result' := result ||| ((b &&& 127) <<< shift)
        if b &&& 128 = 0 then (result', none, c')
        else readVarIntAux c' (shift + 7) result' fuel

/-- `readVarInt` (scanner.go lines 118-135): decode a 7-bit-group varint,
at most `maxBytes = 5` groups, returning `(0, err)` on a read error and
`(0, "varint too long")` when all five bytes have the continuation bit set.
The Go `int` result is modelled as `Nat`: the accumulated value occupies at
most 35 bits (see `readVarInt_lt_two_pow_35`), so it never reaches the sign
bit of a 64-bit `int` and the `Nat` value coincides with the Go value. -/
def readVarInt (c : Conn) : Nat × Option GoErr × Conn :=
  readVarIntAux c 0 0 5

/-- Result of one bounded read loop (scanner.go lines 172-187 and 207-222). -/
inductive LoopRes where
  | timeout
  | readErr (e : GoErr)
  | ok (buf : List Nat) (c : Conn)
  deriving DecidableEq, Repr

/-- The deadline passed to `time.After`, in seconds. -/
def timeoutSecs : Nat := 5

/-- The bounded read loop (scanner.go lines 172-187, identically 207-222):
while `totalRead < limit`, the `select` first takes the `<-timeout` case when
the deadline has already elapsed (`timeoutSecs ≤ elapsed`), else performs
`conn.Read(data[totalRead:])`.  A non-`io.EOF` error aborts; bytes are
accumulated and `io.EOF` breaks the loop.  The returned buffer is the whole
`make([]byte, limit)` allocation: bytes written so far followed by the zero
bytes never overwritten.  The two `match` arms on the connection inline
`Conn.read` (an exhausted script reads as `(0, io.EOF)`), which keeps the
recursion structural. -/
def readLoop (limit : Nat) : Conn → Nat → List Nat → Nat → LoopRes
  | c, totalRead, acc, elapsed =>
    if totalRead < limit then
      if timeoutSecs ≤ elapsed then .timeout
      else
        match c with
        | [] => .ok (acc ++ List.replicate (limit - totalRead) 0) []
        | ev :: rest =>
          let bytes := (ev.chunk.take (limit - totalRead)).map (fun b => b % 256)
          match ev.err with
          | some e =>
            if e = .eof then
              .ok (acc ++ bytes ++ List.replicate (limit - (totalRead + bytes.length)) 0) rest
            else .readErr e
          | none => readLoop limit rest (totalRead + bytes.length) (acc ++ bytes) (elapsed + ev.delta)
    else .ok (acc ++ List.replicate (limit - totalRead) 0) c

/-- `Results` (scanner.go lines 38-41). -/
structure Results where
  Banner1 : String
  Banner2 : String
  deriving DecidableEq, Repr

/-- The inputs `Scan` consumes: whether `target.Open` fails, whether each of
the two `conn.Write` calls fails, and the scripted connection. -/
structure ScanInput where
  openErr : Option GoErr
  write1Err : Option GoErr
  write2Err : Option GoErr
  conn : Conn
  deriving DecidableEq, Repr

/-- The repeated `return zgrab2.TryGetScanStatus(err), nil, err` pattern. -/
def errTriple (e : GoErr) : ScanStatus × Option Results × Option GoErr :=
  (tryGetScanStatus e, none, some e)

/-- The repeated `return zgrab2.SCAN_PROTOCOL_ERROR, nil, errors.New(msg)`
pattern. -/
def protoTriple (msg : String) : ScanStatus × Option Results × Option GoErr :=
  (.protocolError, none, some (.str msg))

/-- Digit `n` of Go's `encoding/hex` table "0123456789abcdef": the character
`'0' + n` (code 48) for `n < 10` and `'a' + (n - 10)` (code 87 + n)
otherwise. -/
def hexDigit (n : Nat) : Char :=
  if n < 10 then Char.ofNat (48 + n) else Char.ofNat (87 + n)

/-- One byte as two lowercase hex characters, `hextable[v>>4]` then
`hextable[v&0x0f]`. -/
def hexByte (b : Nat) : List Char :=
  [hexDigit (b >>> 4), hexDigit (b &&& 15)]

/-- `hex.EncodeToString`. -/
def hexEncode : List Nat → String
  | [] => ""
  | b :: bs => String.mk (hexByte b) ++ hexEncode bs

/-- Tail of `Scan` after the round-2 length check passed (scanner.go lines
203-229): read exactly 9 bytes under a fresh deadline, then hex-encode both
buffers and succeed. -/
def afterLen2 (c : Conn) (data : List Nat) : ScanStatus × Option Results × Option GoErr :=
  match readLoop 9 c 0 [] 0 with
  | .timeout => protoTriple "read timeout"
  | .readErr e => errTriple e
  | .ok data2 _ => (.success, some ⟨hexEncode data, hexEncode data2⟩, none)

/-- Round 2 of `Scan` (scanner.go lines 189-229): write `probe2`, decode the
length prefix, require it to be exactly 9, then read the payload. -/
def round2 (write2Err : Option GoErr) (c : Conn) (data : List Nat) :
    ScanStatus × Option Results × Option GoErr :=
  match write2Err with
  | some e => errTriple e
  | none =>
    match readVarInt c with
    | (_, some e, _) => errTriple e
    | (len2, none, c') =>
      if len2 ≠ 9 then protoTriple "banner length mismatch"
      else afterLen2 c' data

/-- Tail of `Scan` after the round-1 length checks passed (scanner.go lines
168-229): read `limit` bytes under a deadline, then run round 2 on the final
round-1 buffer. -/
def afterLen1 (limit : Nat) (c : Conn) (write2Err : Option GoErr) :
    ScanStatus × Option Results × Option GoErr :=
  match readLoop limit c 0 [] 0 with
  | .timeout => protoTriple "read timeout"
  | .readErr e => errTriple e
  | .ok data c' => round2 write2Err c' data

/-- `Scan` (scanner.go lines 137-230): open, write `probe1`, decode the
round-1 length prefix, check `1 ≤ length ≤ 32800` (rejecting `> 32800` as
"banner too long" and `< 1` as "zero/negative banner length"), then read the
payload and run round 2. -/
def Scan.run (inp : ScanInput) : ScanStatus × Option Results × Option GoErr :=
  match inp.openErr with
  | some e => errTriple e
  | none =>
    match inp.write1Err with
    | some e => errTriple e
    | none =>
      match readVarInt inp.conn with
      | (_, some e, _) => errTriple e
      | (len, none, c1) =>
        if len > 32800 then protoTriple "banner too long"
        else if len < 1 then protoTriple "zero/negative banner length"
        else afterLen1 len c1 inp.write2Err

/-- The spec's formula for the value of a varint whose byte groups are `bs`:
groups are accumulated least-significant-first, each group left-shifted by 7
more bits than the previous, i.e. `Σ (bs[i] &&& 0x7F) * 2 ^ (7 * i)`.  This
definition follows the specification's words; the theorems compare it with
the source-derived `readVarInt`. -/
def varIntSpecVal : List Nat → Nat
  | [] => 0
  | b :: bs => (b &&& 127) + varIntSpecVal bs * 128

/-- A single-byte read event delivering the byte `b` instantly without
error. -/
def evOf (b : Nat) : ReadEv := ⟨0, [b], none⟩

/-! ### Concrete scan inputs used as witnesses and counterexamples -/

/-- The spec's end-to-end scenario: the peer answers `probe1` with varint
`0x05` and the 5 bytes `de ad be ef 01`, then answers `probe2` with varint
`0x09` and 9 bytes. -/
def endToEnd : ScanInput :=
  ⟨none, none, none,
    [⟨0, [5], none⟩, ⟨0, [222, 173, 190, 239, 1], none⟩,
      ⟨0, [9], none⟩, ⟨0, [1, 2, 3, 4, 5, 6, 7, 8, 9], none⟩]⟩

/-- Round 1 declares length 10, the peer sends the 5 bytes of "hello" and
then closes; round 2 completes normally. -/
def shortReadInput : ScanInput :=
  ⟨none, none, none,
    [⟨0, [10], none⟩, ⟨0, [104, 101, 108, 108, 111], none⟩, ⟨0, [], some .eof⟩,
      ⟨0, [9], none⟩, ⟨0, [1, 2, 3, 4, 5, 6, 7, 8, 9], none⟩]⟩

/-- Round 1 declares length 2; the first byte arrives instantly, the second
read takes 6 seconds (crossing the 5-second deadline mid-read) and completes
the buffer; round 2 completes normally. -/
def straddleInput : ScanInput :=
  ⟨none, none, none,
    [⟨0, [2], none⟩, ⟨0, [170], none⟩, ⟨6, [187], none⟩,
      ⟨0, [9], none⟩, ⟨0, [1, 2, 3, 4, 5, 6, 7, 8, 9], none⟩]⟩

/-- Five reads each delivering one byte with the continuation bit set. -/
def allContinuation : ScanInput :=
  ⟨none, none, none, List.replicate 5 (evOf 128)⟩

/-- The round-1 length prefix decodes to 32801. -/
def tooLongInput : ScanInput :=
  ⟨none, none, none, [evOf 161, evOf 128, evOf 2]⟩

/-- Round 1 declares length 1 and delivers one byte; round 2 declares
length 8. -/
def mismatchInput : ScanInput :=
  ⟨none, none, none, [evOf 1, ⟨0, [65], none⟩, evOf 8]⟩

/-- Round 1 declares length 2; the first byte takes 6 seconds, so the next
iteration finds the deadline expired with the buffer unfilled. -/
def stallInput : ScanInput :=
  ⟨none, none, none, [evOf 2, ⟨6, [65], none⟩, ⟨0, [66], none⟩]⟩

/-! ### Helper lemmas about the varint decoder -/

/-- Or-ing a value below `2 ^ s` with a left-shift by `s` is addition: the bit
ranges are disjoint. -/
theorem lor_shiftLeft_eq_add {a : Nat} (x s : Nat) (h : a < 2 ^ s) :
    a ||| x <<< s = x * 2 ^ s + a := by
  rw [Nat.shiftLeft_eq, Nat.lor_comm, Nat.mul_comm x (2 ^ s)]
  exact (Nat.mul_add_lt_is_or h x).symm

/-- Accumulating one more 7-bit group keeps the value below the next group
boundary. -/
theorem lor_group_lt {result shift : Nat} (b : Nat) (hres : result < 2 ^ shift) :
    result ||| ((b &&& 127) <<< shift) < 2 ^ (shift + 7) := by
  rw [lor_shiftLeft_eq_add _ _ hres]
  have h1 : b &&& 127 ≤ 127 := Nat.and_le_right
  have h2 : (b &&& 127) * 2 ^ shift + result < ((b &&& 127) + 1) * 2 ^ shift := by
    have := Nat.two_pow_pos shift
    calc (b &&& 127) * 2 ^ shift + result < (b &&& 127) * 2 ^ shift + 2 ^ shift := by omega
      _ = ((b &&& 127) + 1) * 2 ^ shift := by ring
  calc (b &&& 127) * 2 ^ shift + result
      < ((b &&& 127) + 1) * 2 ^ shift := h2
    _ ≤ 128 * 2 ^ shift := Nat.mul_le_mul_right _ (by omega)
    _ = 2 ^ (shift + 7) := by rw [pow_add]; ring

/-- One decoder iteration on a byte with the continuation bit clear stops. -/
theorem readVarIntAux_ev_stop (ev : ReadEv) (c : Conn) (shift result fuel : Nat)
    (herr : ev.err = none) (hstop : ev.chunk.headD 0 % 256 &&& 128 = 0) :
    readVarIntAux (ev :: c) shift result (fuel + 1)
      = (result ||| ((ev.chunk.headD 0 % 256 &&& 127) <<< shift), none, c) := by
  obtain ⟨d, ch, e⟩ := ev
  cases e
  · cases ch <;> simp_all [readVarIntAux, Conn.read]
  · simp at herr

/-- One decoder iteration on a byte with the continuation bit set continues
with the shift advanced by 7. -/
theorem readVarIntAux_ev_cont (ev : ReadEv) (c : Conn) (shift result fuel : Nat)
    (herr : ev.err = none) (hcont : ev.chunk.headD 0 % 256 &&& 128 ≠ 0) :
    readVarIntAux (ev :: c) shift result (fuel + 1)
      = readVarIntAux c (shift + 7)
          (result ||| ((ev.chunk.headD 0 % 256 &&& 127) <<< shift)) fuel := by
  obtain ⟨d, ch, e⟩ := ev
  cases e
  · cases ch <;> simp_all [readVarIntAux, Conn.read]
  · simp at herr

/-- The decoder agrees with the specification's least-significant-group-first
formula on any stream that delivers the groups of a well-formed varint one
byte per read. -/
theorem readVarIntAux_spec (init : List Nat) :
    ∀ (b : Nat) (rest : Conn) (shift result fuel : Nat),
      init.length + 1 ≤ fuel →
      (∀ x ∈ init, x < 256 ∧ x &&& 128 ≠ 0) →
      b < 256 → b &&& 128 = 0 →
      result < 2 ^ shift →
      readVarIntAux ((init ++ [b]).map evOf ++ rest) shift result fuel
        = (result + varIntSpecVal (init ++ [b]) * 2 ^ shift, none, rest) := by
  induction init with
  | nil =>
    intro b rest shift result fuel hfuel hinit hb hcont hres
    match fuel, hfuel with
    | f + 1, _ =>
      have hstep := readVarIntAux_ev_stop (evOf b) rest shift result f rfl
        (by simpa [evOf, Nat.mod_eq_of_lt hb] using hcont)
      simp only [List.nil_append, List.map_cons, List.map_nil, List.cons_append,
        List.nil_append] at hstep ⊢
      rw [hstep, lor_shiftLeft_eq_add _ _ hres]
      simp [evOf, varIntSpecVal, Nat.mod_eq_of_lt hb, Nat.add_comm]
  | cons a init ih =>
    intro b rest shift result fuel hfuel hinit hb hcont hres
    match fuel, hfuel with
    | f + 1, hfuel =>
      obtain ⟨ha256, hacont⟩ := hinit a (by simp)
      have hstep := readVarIntAux_ev_cont (evOf a) ((init ++ [b]).map evOf ++ rest)
        shift result f rfl (by simpa [evOf, Nat.mod_eq_of_lt ha256] using hacont)
      simp only [List.cons_append, List.map_cons] at hstep ⊢
      rw [show (evOf a).chunk.headD 0 % 256 = a from by
        simp [evOf, Nat.mod_eq_of_lt ha256]] at hstep
      rw [hstep, ih b rest (shift + 7) _ f (by simpa using hfuel)
        (fun x hx => hinit x (by simp [hx])) hb hcont (lor_group_lt a hres)]
      rw [lor_shiftLeft_eq_add _ _ hres]
      simp only [varIntSpecVal]
      rw [pow_add]
      ring_nf

/-- `readVarInt` on a well-formed varint stream: value per the spec formula,
no error, exactly the varint's bytes consumed. -/
theorem readVarInt_spec (init : List Nat) (b : Nat) (rest : Conn)
    (hlen : init.length + 1 ≤ 5)
    (hinit : ∀ x ∈ init, x < 256 ∧ x &&& 128 ≠ 0)
    (hb : b < 256) (hcont : b &&& 128 = 0) :
    readVarInt ((init ++ [b]).map evOf ++ rest)
      = (varIntSpecVal (init ++ [b]), none, rest) := by
  have h := readVarIntAux_spec init b rest 0 0 5 hlen hinit hb hcont (by norm_num)
  simpa [readVarInt] using h

/-- All successful decoder exits yield a value below `2 ^ 35`, provided the
running accumulator occupies only the bits below `shift` and at most
`35 - shift` bits of groups can still be added. -/
theorem readVarIntAux_bound :
    ∀ (fuel : Nat) (c : Conn) (shift result : Nat),
      result < 2 ^ shift → shift + 7 * fuel ≤ 35 →
      (readVarIntAux c shift result fuel).2.1 = none →
      (readVarIntAux c shift result fuel).1 < 2 ^ 35
  | 0, c, shift, result, _, _, herr => by simp [readVarIntAux] at herr
  | fuel + 1, c, shift, result, hres, hle, herr => by
    match c with
    | [] => simp [readVarIntAux, Conn.read] at herr
    | ev :: rest =>
      cases he : ev.err with
      | some e =>
        rw [readVarIntAux] at herr
        simp [Conn.read, he] at herr
      | none =>
        by_cases hbit : ev.chunk.headD 0 % 256 &&& 128 = 0
        · rw [readVarIntAux_ev_stop ev rest shift result fuel he hbit]
          calc result ||| ((ev.chunk.headD 0 % 256 &&& 127) <<< shift)
              < 2 ^ (shift + 7) := lor_group_lt _ hres
            _ ≤ 2 ^ 35 := Nat.pow_le_pow_right (by omega) (by omega)
        · rw [readVarIntAux_ev_cont ev rest shift result fuel he hbit] at herr ⊢
          exact readVarIntAux_bound fuel rest (shift + 7) _
            (lor_group_lt _ hres) (by omega) herr

/-- Every error exit of the decoder carries the value 0, mirroring the Go
returns `(0, err)` and `(0, "varint too long")`. -/
theorem readVarIntAux_err_zero :
    ∀ (fuel : Nat) (c : Conn) (shift result : Nat) (e : GoErr),
      (readVarIntAux c shift result fuel).2.1 = some e →
      (readVarIntAux c shift result fuel).1 = 0
  | 0, c, shift, result, e, _ => by simp [readVarIntAux]
  | fuel + 1, c, shift, result, e, herr => by
    match c with
    | [] => simp [readVarIntAux, Conn.read]
    | ev :: rest =>
      cases he : ev.err with
      | some e2 => rw [readVarIntAux]; simp [Conn.read, he]
      | none =>
        by_cases hbit : ev.chunk.headD 0 % 256 &&& 128 = 0
        · rw [readVarIntAux_ev_stop ev rest shift result fuel he hbit] at herr
          simp at herr
        · rw [readVarIntAux_ev_cont ev rest shift result fuel he hbit] at herr ⊢
          exact readVarIntAux_err_zero fuel rest (shift + 7) _ e herr

/-- A byte below 128 has the continuation bit clear. -/
theorem and_128_eq_zero_of_lt {b : Nat} (hb : b < 128) : b &&& 128 = 0 := by
  have h128 : (128 : Nat) = 2 ^ 7 := by norm_num
  rw [h128, Nat.and_two_pow, Nat.testBit_lt_two_pow (by omega)]
  simp

/-- A byte below 128 is unchanged by masking with `0x7F`. -/
theorem and_127_eq_self_of_lt {b : Nat} (hb : b < 128) : b &&& 127 = b := by
  have h : b &&& 2 ^ 7 - 1 = b % 2 ^ 7 := Nat.and_pow_two_sub_one_eq_mod b 7
  norm_num at h
  rw [h, Nat.mod_eq_of_lt hb]

/-! ### Helper lemmas about the bounded read loop -/

/-- An iteration that begins with an unfilled buffer after the deadline takes
the `<-timeout` case of the `select`. -/
theorem readLoop_timeout_of (limit totalRead : Nat) (acc : List Nat) (elapsed : Nat)
    (c : Conn) (h1 : totalRead < limit) (h2 : timeoutSecs ≤ elapsed) :
    readLoop limit c totalRead acc elapsed = .timeout := by
  rw [readLoop.eq_def]
  simp [h1, h2]

/-- An iteration that begins with the buffer already full exits the loop. -/
theorem readLoop_done (limit totalRead : Nat) (acc : List Nat) (elapsed : Nat)
    (c : Conn) (h : ¬totalRead < limit) :
    readLoop limit c totalRead acc elapsed
      = .ok (acc ++ List.replicate (limit - totalRead) 0) c := by
  rw [readLoop.eq_def]
  simp [h]

/-- An error-free read accumulates its bytes and its duration. -/
theorem readLoop_step (limit totalRead : Nat) (acc : List Nat) (elapsed d : Nat)
    (ch : List Nat) (rest : Conn)
    (h1 : totalRead < limit) (h2 : elapsed < timeoutSecs) :
    readLoop limit (⟨d, ch, none⟩ :: rest) totalRead acc elapsed
      = readLoop limit rest
          (totalRead + ((ch.take (limit - totalRead)).map (fun b => b % 256)).length)
          (acc ++ (ch.take (limit - totalRead)).map (fun b => b % 256))
          (elapsed + d) := by
  conv_lhs => rw [readLoop]
  simp [h1, Nat.not_le.mpr h2]

/-- A read that returns `io.EOF` stops the loop, keeping the bytes that came
with it and the zero tail of the buffer. -/
theorem readLoop_step_eof (limit totalRead : Nat) (acc : List Nat) (elapsed d : Nat)
    (ch : List Nat) (rest : Conn)
    (h1 : totalRead < limit) (h2 : elapsed < timeoutSecs) :
    readLoop limit (⟨d, ch, some .eof⟩ :: rest) totalRead acc elapsed
      = .ok (acc ++ (ch.take (limit - totalRead)).map (fun b => b % 256)
          ++ List.replicate
              (limit - (totalRead
                + ((ch.take (limit - totalRead)).map (fun b => b % 256)).length)) 0)
          rest := by
  conv_lhs => rw [readLoop]
  simp [h1, Nat.not_le.mpr h2]

/-! ### Decomposition lemmas for `Scan.run` -/

/-- After a successful round-1 varint decode, `Scan.run` is exactly the two
length checks followed by the round-1 read. -/
theorem scanRun_round1 (inp : ScanInput) (len : Nat) (c1 : Conn)
    (ho : inp.openErr = none) (hw : inp.write1Err = none)
    (hv : readVarInt inp.conn = (len, none, c1)) :
    Scan.run inp
      = (if len > 32800 then protoTriple "banner too long"
        else if len < 1 then protoTriple "zero/negative banner length"
        else afterLen1 len c1 inp.write2Err) := by
  rw [Scan.run, ho, hw, hv]

/-- A round-1 read loop returning a buffer hands it to round 2. -/
theorem afterLen1_ok (limit : Nat) (c c' : Conn) (w2 : Option GoErr) (data : List Nat)
    (hl : readLoop limit c 0 [] 0 = .ok data c') :
    afterLen1 limit c w2 = round2 w2 c' data := by
  rw [afterLen1, hl]

/-- A round-1 read loop that times out fails the scan. -/
theorem afterLen1_timeout (limit : Nat) (c : Conn) (w2 : Option GoErr)
    (hl : readLoop limit c 0 [] 0 = .timeout) :
    afterLen1 limit c w2 = protoTriple "read timeout" := by
  rw [afterLen1, hl]

/-- After a successful round-2 varint decode (and a successful `probe2`
write), round 2 is exactly the equality-with-9 check followed by the round-2
read. -/
theorem round2_run (c : Conn) (len2 : Nat) (c' : Conn) (data : List Nat)
    (hv : readVarInt c = (len2, none, c')) :
    round2 none c data
      = (if len2 ≠ 9 then protoTriple "banner length mismatch"
        else afterLen2 c' data) := by
  rw [round2.eq_def, hv]

/-! ### Output-shape lemmas -/

/-- The framework classifier never classifies an error as success. -/
theorem tryGetScanStatus_ne_success (e : GoErr) : tryGetScanStatus e ≠ .success := by
  cases e <;> simp [tryGetScanStatus]

/-- Every transport-error return is a nil result with a non-success status. -/
theorem errTriple_shape (e : GoErr) :
    ∃ st e2, errTriple e = (st, none, some e2) ∧ st ≠ ScanStatus.success :=
  ⟨_, _, rfl, tryGetScanStatus_ne_success e⟩

/-- Every exit of the round-2 tail is either a success carrying a result or a
failure carrying an error and no result. -/
theorem afterLen2_shape (c : Conn) (data : List Nat) :
    (∃ r, afterLen2 c data = (.success, some r, none)) ∨
      ∃ st e, afterLen2 c data = (st, none, some e) ∧ st ≠ ScanStatus.success := by
  rw [afterLen2]
  cases hl : readLoop 9 c 0 [] 0 with
  | timeout => exact Or.inr ⟨.protocolError, .str "read timeout", rfl, by decide⟩
  | readErr e => exact Or.inr (errTriple_shape e)
  | ok buf c2 => exact Or.inl ⟨_, rfl⟩

/-- Every exit of round 2 is either a success carrying a result or a failure
carrying an error and no result. -/
theorem round2_shape (w2 : Option GoErr) (c : Conn) (data : List Nat) :
    (∃ r, round2 w2 c data = (.success, some r, none)) ∨
      ∃ st e, round2 w2 c data = (st, none, some e) ∧ st ≠ ScanStatus.success := by
  cases w2 with
  | some e =>
    have h : round2 (some e) c data = errTriple e := by rw [round2.eq_def]
    rw [h]; exact Or.inr (errTriple_shape e)
  | none =>
    rcases hv : readVarInt c with ⟨len2, oerr, c'⟩
    cases oerr with
    | some e =>
      have h : round2 none c data = errTriple e := by rw [round2.eq_def, hv]
      rw [h]; exact Or.inr (errTriple_shape e)
    | none =>
      rw [round2_run c len2 c' data hv]
      by_cases h9 : len2 ≠ 9
      · rw [if_pos h9]
        exact Or.inr ⟨.protocolError, .str "banner length mismatch", rfl, by decide⟩
      · rw [if_neg h9]
        exact afterLen2_shape c' data

/-- Every exit of the round-1 read-and-onward tail is either a success
carrying a result or a failure carrying an error and no result. -/
theorem afterLen1_shape (limit : Nat) (c : Conn) (w2 : Option GoErr) :
    (∃ r, afterLen1 limit c w2 = (.success, some r, none)) ∨
      ∃ st e, afterLen1 limit c w2 = (st, none, some e) ∧ st ≠ ScanStatus.success := by
  rw [afterLen1]
  cases hl : readLoop limit c 0 [] 0 with
  | timeout => exact Or.inr ⟨.protocolError, .str "read timeout", rfl, by decide⟩
  | readErr e => exact Or.inr (errTriple_shape e)
  | ok data c2 => exact round2_shape w2 c2 data

/-- Every exit of `Scan.run` is either a success carrying a result or a
failure carrying an error and no result. -/
theorem scanRun_shape (inp : ScanInput) :
    (∃ r, Scan.run inp = (.success, some r, none)) ∨
      ∃ st e, Scan.run inp = (st, none, some e) ∧ st ≠ ScanStatus.success := by
  cases ho : inp.openErr with
  | some e =>
    have h : Scan.run inp = errTriple e := by rw [Scan.run, ho]
    rw [h]; exact Or.inr (errTriple_shape e)
  | none =>
    cases hw : inp.write1Err with
    | some e =>
      have h : Scan.run inp = errTriple e := by rw [Scan.run, ho, hw]
      rw [h]; exact Or.inr (errTriple_shape e)
    | none =>
      rcases hv : readVarInt inp.conn with ⟨len, oerr, c1⟩
      cases oerr with
      | some e =>
        have h : Scan.run inp = errTriple e := by rw [Scan.run, ho, hw, hv]
        rw [h]; exact Or.inr (errTriple_shape e)
      | none =>
        rw [scanRun_round1 inp len c1 ho hw hv]
        by_cases hbig : len > 32800
        · rw [if_pos hbig]
          exact Or.inr ⟨.protocolError, .str "banner too long", rfl, by decide⟩
        · rw [if_neg hbig]
          by_cases hsmall : len < 1
          · rw [if_pos hsmall]
            exact Or.inr ⟨.protocolError, .str "zero/negative banner length", rfl, by decide⟩
          · rw [if_neg hsmall]
            exact afterLen1_shape len c1 inp.write2Err

/-! ### The claims -/

/-- Claim C1 counterexample: in the very scenario of the claim (declared
length 10, the peer sends the 5 bytes of "hello" and closes, round 2
completes), the scan indeed raises no error and reaches round 2, but
`banner1` is the hex encoding of the full 10-byte buffer — the 5 received
bytes followed by 5 zero bytes — not the hex encoding of the 5 read bytes
only, because `hex.EncodeToString(data)` encodes the whole
`make([]byte, length)` allocation. -/
theorem c1_counterexample :
    Scan.run shortReadInput
      = (.success, some ⟨"68656c6c6f0000000000", "010203040506070809"⟩, none)
    ∧ "68656c6c6f0000000000" ≠ hexEncode [104, 101, 108, 108, 111] :=
  ⟨by decide, by decide⟩

/-- Claim C1 (amended): in round 1, if the decoded length prefix is `len`
(`1 ≤ len ≤ 32800`) and the peer delivers only `k < len` payload bytes and
then signals end-of-stream (before the deadline), the scan raises no error
and proceeds to round 2; the round-1 result buffer keeps its full declared
size `len`, holding the `k` bytes read followed by `len - k` zero bytes, so
`banner1` is the hex encoding of the `k` read bytes followed by the hex
encoding of `len - k` zero bytes. -/
theorem c1_short_read_keeps_declared_length (inp : ScanInput) (len d1 d2 : Nat)
    (bs : List Nat) (rest : Conn)
    (ho : inp.openErr = none) (hw1 : inp.write1Err = none)
    (hv : readVarInt inp.conn = (len, none, ⟨d1, bs, none⟩ :: ⟨d2, [], some .eof⟩ :: rest))
    (hge : 1 ≤ len) (hle : len ≤ 32800) (hk : bs.length < len) (hd : d1 < timeoutSecs) :
    Scan.run inp
      = round2 inp.write2Err rest
          (bs.map (fun b => b % 256) ++ List.replicate (len - bs.length) 0) := by
  have hloop : readLoop len (⟨d1, bs, none⟩ :: ⟨d2, [], some .eof⟩ :: rest) 0 [] 0
      = .ok (bs.map (fun b => b % 256) ++ List.replicate (len - bs.length) 0) rest := by
    rw [readLoop_step len 0 [] 0 d1 bs _ (by omega) (by decide)]
    simp only [Nat.sub_zero, Nat.zero_add, List.nil_append, List.length_map,
      List.take_of_length_le (Nat.le_of_lt hk)]
    rw [readLoop_step_eof len bs.length _ d1 d2 [] rest hk hd]
    simp
  rw [scanRun_round1 inp len _ ho hw1 hv, if_neg (by omega), if_neg (by omega),
    afterLen1_ok len _ rest inp.write2Err _ hloop]

/-- Claim C1 witness: the amended theorem applied to `shortReadInput`. -/
theorem c1_witness :
    Scan.run shortReadInput
      = round2 none [⟨0, [9], none⟩, ⟨0, [1, 2, 3, 4, 5, 6, 7, 8, 9], none⟩]
          ([104, 101, 108, 108, 111].map (fun b => b % 256) ++ List.replicate 5 0) :=
  c1_short_read_keeps_declared_length shortReadInput 10 0 0 [104, 101, 108, 108, 111]
    [⟨0, [9], none⟩, ⟨0, [1, 2, 3, 4, 5, 6, 7, 8, 9], none⟩]
    rfl rfl (by decide) (by decide) (by decide) (by decide) (by decide)

/-- Claim C2 counterexample: on a stream of five continuation bytes the scan
fails with the malformed-varint error, but the reported status is the
classifier's unknown-error status, not the protocol-error status, because
`Scan` returns `zgrab2.TryGetScanStatus(readErr)` for varint failures rather
than `SCAN_PROTOCOL_ERROR`. -/
theorem c2_counterexample :
    Scan.run allContinuation = (.unknownError, none, some (.str "varint too long"))
    ∧ ScanStatus.unknownError ≠ ScanStatus.protocolError :=
  ⟨by decide, by decide⟩

/-- Claim C2 (amended): for every input stream whose first 5 delivered bytes
all have the continuation bit (0x80) set, `readVarInt` consumes exactly those
5 reads and fails with the malformed-varint error, and the orchestrator
reports this failure with the status the framework classifier assigns to a
plain error — the unknown-error status — not the protocol-error status. -/
theorem c2_malformed_varint_unknown_status (inp : ScanInput)
    (e1 e2 e3 e4 e5 : ReadEv) (rest : Conn)
    (ho : inp.openErr = none) (hw1 : inp.write1Err = none)
    (hconn : inp.conn = e1 :: e2 :: e3 :: e4 :: e5 :: rest)
    (hbits : ∀ ev ∈ [e1, e2, e3, e4, e5],
      ev.err = none ∧ ev.chunk.headD 0 % 256 &&& 128 ≠ 0) :
    readVarInt inp.conn = (0, some (.str "varint too long"), rest)
    ∧ Scan.run inp = (.unknownError, none, some (.str "varint too long")) := by
  obtain ⟨h1e, h1b⟩ := hbits e1 (by simp)
  obtain ⟨h2e, h2b⟩ := hbits e2 (by simp)
  obtain ⟨h3e, h3b⟩ := hbits e3 (by simp)
  obtain ⟨h4e, h4b⟩ := hbits e4 (by simp)
  obtain ⟨h5e, h5b⟩ := hbits e5 (by simp)
  have hv : readVarInt (e1 :: e2 :: e3 :: e4 :: e5 :: rest)
      = (0, some (.str "varint too long"), rest) := by
    rw [readVarInt,
      readVarIntAux_ev_cont e1 _ 0 0 4 h1e h1b,
      readVarIntAux_ev_cont e2 _ 7 _ 3 h2e h2b,
      readVarIntAux_ev_cont e3 _ 14 _ 2 h3e h3b,
      readVarIntAux_ev_cont e4 _ 21 _ 1 h4e h4b,
      readVarIntAux_ev_cont e5 _ 28 _ 0 h5e h5b]
    rfl
  refine ⟨hconn ▸ hv, ?_⟩
  rw [Scan.run, ho, hw1, hconn, hv]
  rfl

/-- Claim C2 witness: the amended theorem applied to `allContinuation`. -/
theorem c2_witness :
    readVarInt allContinuation.conn = (0, some (.str "varint too long"), [])
    ∧ Scan.run allContinuation = (.unknownError, none, some (.str "varint too long")) :=
  c2_malformed_varint_unknown_status allContinuation
    (evOf 128) (evOf 128) (evOf 128) (evOf 128) (evOf 128) []
    rfl rfl (by decide) (by decide)

/-- Claim C3: in round 1, a decoded length above 32800 fails with the
"banner too long" protocol error and a decoded length below 1 with the
"zero/negative banner length" protocol error, in both cases without touching
the connection again (the outcome is a constant independent of the remaining
events `c1`); a length inside `[1, 32800]` raises neither error and the scan
continues with the payload read. -/
theorem c3_round1_length_validation (inp : ScanInput) (len : Nat) (c1 : Conn)
    (ho : inp.openErr = none) (hw : inp.write1Err = none)
    (hv : readVarInt inp.conn = (len, none, c1)) :
    (32800 < len → Scan.run inp = protoTriple "banner too long")
    ∧ (len < 1 → Scan.run inp = protoTriple "zero/negative banner length")
    ∧ (1 ≤ len → len ≤ 32800 → Scan.run inp = afterLen1 len c1 inp.write2Err) := by
  have h := scanRun_round1 inp len c1 ho hw hv
  refine ⟨fun hbig => ?_, fun hsmall => ?_, fun hge hle => ?_⟩
  · rw [h, if_pos hbig]
  · rw [h, if_neg (by omega), if_pos hsmall]
  · rw [h, if_neg (by omega), if_neg (by omega)]

/-- Claim C3 witness: a round-1 length prefix decoding to 32801. -/
theorem c3_witness : Scan.run tooLongInput = protoTriple "banner too long" :=
  (c3_round1_length_validation tooLongInput 32801 [] rfl rfl (by decide)).1 (by decide)

/-- Claim C4: in round 2, a decoded length different from 9 fails with the
"banner length mismatch" protocol error without touching the connection again
(the outcome is a constant independent of the remaining events `c3`);
a decoded length of exactly 9 raises no such error and the round-2 payload
read proceeds. -/
theorem c4_round2_length_must_be_nine (inp : ScanInput) (len1 len2 : Nat)
    (c1 c2 c3 : Conn) (data : List Nat)
    (ho : inp.openErr = none) (hw1 : inp.write1Err = none) (hw2 : inp.write2Err = none)
    (hv1 : readVarInt inp.conn = (len1, none, c1))
    (hge : 1 ≤ len1) (hle : len1 ≤ 32800)
    (hl : readLoop len1 c1 0 [] 0 = .ok data c2)
    (hv2 : readVarInt c2 = (len2, none, c3)) :
    (len2 ≠ 9 → Scan.run inp = protoTriple "banner length mismatch")
    ∧ (len2 = 9 → Scan.run inp = afterLen2 c3 data) := by
  have h : Scan.run inp = round2 inp.write2Err c2 data := by
    rw [scanRun_round1 inp len1 c1 ho hw1 hv1, if_neg (by omega), if_neg (by omega),
      afterLen1_ok len1 c1 c2 inp.write2Err data hl]
  rw [hw2] at h
  have h2 := round2_run c2 len2 c3 data hv2
  refine ⟨fun hne => ?_, fun heq => ?_⟩
  · rw [h, h2, if_pos hne]
  · rw [h, h2, if_neg (by omega)]

/-- Claim C4 witness: a round-2 length prefix decoding to 8. -/
theorem c4_witness : Scan.run mismatchInput = protoTriple "banner length mismatch" :=
  (c4_round2_length_must_be_nine mismatchInput 1 8 [⟨0, [65], none⟩, evOf 8] [evOf 8] []
    [65] rfl rfl rfl (by decide) (by decide) (by decide) (by decide) (by decide)).1
    (by decide)

/-- Claim C5 counterexample: the deadline is only consulted at the start of a
loop iteration, so a read that straddles the deadline but completes the
declared length is not interrupted.  With declared length 2, the first byte
arrives at elapsed time 0 and the second read takes 6 seconds
(`timeoutSecs < 6`), so the 5-second deadline elapses while only 1 of the 2
declared bytes has been read — yet the scan raises no read-timeout error and
succeeds, returning both bytes, contradicting the claim that every such phase
fails with a protocol-error status and a nil result. -/
theorem c5_counterexample :
    Scan.run straddleInput = (.success, some ⟨"aabb", "010203040506070809"⟩, none)
    ∧ timeoutSecs < 6 :=
  ⟨by decide, by decide⟩

/-- Claim C5 (amended): the 5-second deadline is enforced only at the start
of each read-loop iteration.  Whenever an iteration begins with the buffer
unfilled and at least `timeoutSecs` seconds of that phase elapsed, the loop
aborts with the timeout outcome, and the scan then fails with the
"read timeout" error under the protocol-error status and a nil result.  (A
read that crosses the deadline but completes the declared length, or ends
the phase with `io.EOF` or an error, is never interrupted.) -/
theorem c5_timeout_checked_at_iteration_start (inp : ScanInput) (len : Nat) (c1 : Conn)
    (ho : inp.openErr = none) (hw1 : inp.write1Err = none)
    (hv : readVarInt inp.conn = (len, none, c1))
    (hge : 1 ≤ len) (hle : len ≤ 32800) :
    (∀ (c : Conn) (totalRead : Nat) (acc : List Nat) (elapsed : Nat),
        totalRead < len → timeoutSecs ≤ elapsed →
        readLoop len c totalRead acc elapsed = .timeout)
    ∧ (readLoop len c1 0 [] 0 = .timeout → Scan.run inp = protoTriple "read timeout") := by
  refine ⟨fun c tr acc el h1 h2 => readLoop_timeout_of len tr acc el c h1 h2, fun hl => ?_⟩
  rw [scanRun_round1 inp len c1 ho hw1 hv, if_neg (by omega), if_neg (by omega),
    afterLen1_timeout len c1 inp.write2Err hl]

/-- Claim C5 witness: a first read of 6 seconds leaves the second iteration
past the deadline with 1 of 2 bytes read, and the scan fails with the
read-timeout protocol error and no result. -/
theorem c5_witness : Scan.run stallInput = protoTriple "read timeout" :=
  (c5_timeout_checked_at_iteration_start stallInput 2 [⟨6, [65], none⟩, ⟨0, [66], none⟩]
    rfl rfl (by decide) (by decide) (by decide)).2 (by decide)

/-- Claim C6: for every byte sequence in which exactly the last byte has the
continuation bit clear (at most 5 bytes in all), `readVarInt` returns the
value `Σ (bs[i] &&& 0x7F) <<< (7 * i)` — the least-significant-group-first
accumulation captured by `varIntSpecVal` — with no error, consuming exactly
those bytes; in particular every single byte below 128 decodes to itself with
exactly one byte consumed. -/
theorem c6_varint_group_accumulation :
    (∀ (init : List Nat) (b : Nat) (rest : Conn),
      init.length + 1 ≤ 5 →
      (∀ x ∈ init, x < 256 ∧ x &&& 128 ≠ 0) →
      b < 256 → b &&& 128 = 0 →
      readVarInt ((init ++ [b]).map evOf ++ rest)
        = (varIntSpecVal (init ++ [b]), none, rest))
    ∧ (∀ (b : Nat) (rest : Conn), b < 128 →
      readVarInt (evOf b :: rest) = (b, none, rest)) := by
  constructor
  · exact fun init b rest hlen hinit hb hcont => readVarInt_spec init b rest hlen hinit hb hcont
  · intro b rest hb
    have h := readVarInt_spec [] b rest (by simp) (by simp)
      (by omega) (and_128_eq_zero_of_lt hb)
    simpa [varIntSpecVal, and_127_eq_self_of_lt hb] using h

/-- Claim C6 witness: the single byte 10 decodes to 10, consuming one read. -/
theorem c6_witness : readVarInt [evOf 10] = (10, none, []) :=
  c6_varint_group_accumulation.2 10 [] (by decide)

/-- Claim C7: `Scan` never returns a partial result.  Whenever it returns a
non-nil error, the result value is nil; and whenever it returns a non-nil
result, the status is the success status and the error is nil. -/
theorem c7_no_partial_result (inp : ScanInput) :
    ((Scan.run inp).2.2 ≠ none → (Scan.run inp).2.1 = none)
    ∧ (∀ r, (Scan.run inp).2.1 = some r →
        (Scan.run inp).1 = ScanStatus.success ∧ (Scan.run inp).2.2 = none) := by
  rcases scanRun_shape inp with ⟨r, h⟩ | ⟨st, e, h, hne⟩ <;> rw [h] <;> simp

/-- Claim C7 witness: a failing `target.Open` yields a nil result. -/
theorem c7_witness :
    (Scan.run ⟨some .netRefused, none, none, []⟩).2.1 = none :=
  (c7_no_partial_result ⟨some .netRefused, none, none, []⟩).1 (by decide)

/-- Claim C8: on success `Banner1` and `Banner2` are the lowercase hex
encodings (`hexEncode`) of the round-1 and round-2 byte buffers, an empty
buffer encodes as the empty string, and in the end-to-end scenario — varint
`0x05` then the 5 bytes `de ad be ef 01`, varint `0x09` then 9 bytes — the
scan succeeds with `banner1` the hex of the 5 bytes and `banner2` the hex of
the 9 bytes. -/
theorem c8_hex_encoded_banners :
    hexEncode [] = ""
    ∧ (∀ (inp : ScanInput) (len1 : Nat) (c1 c2 c3 c4 : Conn) (data data2 : List Nat),
        inp.openErr = none → inp.write1Err = none → inp.write2Err = none →
        readVarInt inp.conn = (len1, none, c1) → 1 ≤ len1 → len1 ≤ 32800 →
        readLoop len1 c1 0 [] 0 = .ok data c2 →
        readVarInt c2 = (9, none, c3) →
        readLoop 9 c3 0 [] 0 = .ok data2 c4 →
        Scan.run inp = (.success, some ⟨hexEncode data, hexEncode data2⟩, none))
    ∧ Scan.run endToEnd = (.success, some ⟨"deadbeef01", "010203040506070809"⟩, none) := by
  refine ⟨rfl, ?_, by decide⟩
  intro inp len1 c1 c2 c3 c4 data data2 ho hw1 hw2 hv1 hge hle hl1 hv2 hl2
  rw [scanRun_round1 inp len1 c1 ho hw1 hv1, if_neg (by omega), if_neg (by omega),
    afterLen1_ok len1 c1 c2 inp.write2Err data hl1, hw2,
    round2_run c2 9 c3 data hv2, if_neg (by omega), afterLen2, hl2]

/-- Claim C8 witness: the general success-shape theorem applied to the
end-to-end input. -/
theorem c8_witness :
    Scan.run endToEnd
      = (.success,
        some ⟨hexEncode [222, 173, 190, 239, 1], hexEncode [1, 2, 3, 4, 5, 6, 7, 8, 9]⟩,
        none) :=
  c8_hex_encoded_banners.2.1 endToEnd 5
    [⟨0, [222, 173, 190, 239, 1], none⟩, ⟨0, [9], none⟩,
      ⟨0, [1, 2, 3, 4, 5, 6, 7, 8, 9], none⟩]
    [⟨0, [9], none⟩, ⟨0, [1, 2, 3, 4, 5, 6, 7, 8, 9], none⟩]
    [⟨0, [1, 2, 3, 4, 5, 6, 7, 8, 9], none⟩] []
    [222, 173, 190, 239, 1] [1, 2, 3, 4, 5, 6, 7, 8, 9]
    rfl rfl rfl (by decide) (by decide) (by decide) (by decide) (by decide) (by decide)

/-- Claim C9: every value `readVarInt` returns successfully is below `2^35`
(five 7-bit groups), so as a 64-bit Go `int` it is never negative, and the
round-1 "zero/negative banner length" branch (`length < 1`) can only be
taken with the decoded length exactly 0. -/
theorem c9_varint_value_bounded (c : Conn) (v : Nat) (rest : Conn)
    (h : readVarInt c = (v, none, rest)) :
    v < 2 ^ 35 ∧ (v < 1 → v = 0) := by
  refine ⟨?_, by omega⟩
  have hb := readVarIntAux_bound 5 c 0 0 (by norm_num) (by norm_num)
  rw [show readVarIntAux c 0 0 5 = readVarInt c from rfl, h] at hb
  exact hb rfl

/-- Claim C9 witness: the byte 0 decodes to the value 0. -/
theorem c9_witness : (0 : Nat) < 2 ^ 35 ∧ ((0 : Nat) < 1 → (0 : Nat) = 0) :=
  c9_varint_value_bounded [evOf 0] 0 [] (by decide)

/-- Claim C10: `Scan` returns a non-nil result exactly when it returns a nil
error, and `readVarInt` returns the value 0 on every one of its error
paths. -/
theorem c10_result_iff_no_error :
    (∀ inp : ScanInput, (Scan.run inp).2.1 ≠ none ↔ (Scan.run inp).2.2 = none)
    ∧ ∀ (c : Conn) (e : GoErr),
        (readVarInt c).2.1 = some e → (readVarInt c).1 = 0 := by
  constructor
  · intro inp
    rcases scanRun_shape inp with ⟨r, h⟩ | ⟨st, e, h, _⟩ <;> rw [h] <;> simp
  · intro c e h
    exact readVarIntAux_err_zero 5 c 0 0 e h

/-- Claim C10 witness: a read error during the varint yields the value 0. -/
theorem c10_witness : (readVarInt []).1 = 0 :=
  c10_result_iff_no_error.2 [] .eof (by decide)

end MC
